/-
Verification of the package/environment discovery and reconciliation layer
of the Piping VS Code extension (`src/utils/pythonExecutor.ts`, embedded
here from `src/unnamed/part_001`, and `src/providers/environmentProvider.ts`).

The external world (child processes, the filesystem, the VS Code workspace)
is modelled as explicit oracle records passed to each embedded function:
each oracle field is the outcome the corresponding external call would
produce.  JSON parsing of process output is modelled at the value level:
a raw output is either a well-formed array of entries or malformed text,
and the literal string "[]" used by the code as a fallback corresponds to
the well-formed empty array.
-/
import Mathlib

namespace Piping

/-- `PackageInfo` from `pythonExecutor.ts`: the merged per-package record.
`latest` is optional exactly as in the source; `hasUpdate` and
`description` are always assigned on the reconciliation path, so they are
plain fields here. -/
structure PackageInfo where
  name : String
  version : String
  latest : Option String
  hasUpdate : Bool
  description : String
deriving DecidableEq, Repr

/-- `EnvironmentInfo` from `pythonExecutor.ts`. -/
structure EnvironmentInfo where
  name : String
  path : String
  isActive : Bool
deriving DecidableEq, Repr

/-- Error taxonomy of the executor: a failed process invocation
(non-zero exit or spawn failure), unparseable JSON output, or no usable
Python interpreter found (`getPythonPath` ends in a `throw`). -/
inductive PipError where
  | execFailed (msg : String)
  | parseFailed (msg : String)
  | notFound
deriving DecidableEq, Repr

/-- The resolved pip invocation returned by `getPipCommand`:
`{command, args, envPath}`.  Both return paths of the source set
`envPath` to `undefined`, kept here as an `Option` for fidelity. -/
structure PipCmd where
  command : String
  args : List String
  envPath : Option String
deriving DecidableEq, Repr

/-- One entry of the parsed `pip list --format=json` output. -/
structure InstalledPackage where
  name : String
  version : String
deriving DecidableEq, Repr

/-- One entry of the parsed `pip list --outdated --format=json` output. -/
structure OutdatedPackage where
  name : String
  version : String
  latest_version : String
deriving DecidableEq, Repr

/-- Raw textual output of the outdated query, seen through `JSON.parse`:
either it parses as an array of outdated entries or it is malformed.
The fallback literal "[]" of the source is `arr []`. -/
inductive OutdatedRaw where
  | arr (entries : List OutdatedPackage)
  | malformed (text : String)
deriving DecidableEq, Repr

/-- `JSON.parse` applied to the raw outdated output. -/
def parseOutdated : OutdatedRaw → Except PipError (List OutdatedPackage)
  | .arr entries => .ok entries
  | .malformed text => .error (.parseFailed text)

/-- Oracle for one `getInstalledPackages` call: the outcome of resolving
the pip command, of the installed-list query (process run composed with
`JSON.parse`; either stage failing is an error here, both land in the same
`catch`), of the outdated-list process run (parse is a separate stage,
because the catch-fallback to "[]" in the source guards only the process
run), and of each per-package `pip show` run. -/
structure ListEnv where
  pipCmd : Except PipError PipCmd
  installedOutput : Except PipError (List InstalledPackage)
  outdatedCmd : Except PipError OutdatedRaw
  showOutput : String → Except PipError String

/-- The `outdatedMap` built by `outdatedPackages.forEach(pkg =>
outdatedMap.set(pkg.name, pkg.latest_version))`: a later entry with the
same name overwrites an earlier one. -/
def outdatedMapGet (entries : List OutdatedPackage) (name : String) : Option String :=
  entries.foldl (fun acc p => if p.name == name then some p.latest_version else acc) none

/-- JavaScript truthiness of the optional `latest` string, as used in
`hasUpdate: !!latest`: `undefined` and the empty string are falsy. -/
def latestTruthy : Option String → Bool
  | none => false
  | some s => s != ""

/-- Extraction of the description from `pip show` output: the first line
starting with `Summary:`, with the tag dropped and the rest trimmed;
the empty string when no such line exists. -/
def extractSummary (out : String) : String :=
  match (out.splitOn "\n").find? (fun line => line.startsWith "Summary:") with
  | some line => (line.drop "Summary:".length).trim
  | none => ""

/-- The description computed for one package: `pip show` output parsed by
`extractSummary`; any error of the show query is swallowed and yields
the empty string. -/
def descriptionFor (env : ListEnv) (name : String) : String :=
  match env.showOutput name with
  | .ok out => extractSummary out
  | .error _ => ""

/-- The merged record built for one installed package inside the loop of
`getInstalledPackages`. -/
def mergeRecord (env : ListEnv) (outdated : List OutdatedPackage)
    (pkg : InstalledPackage) : PackageInfo :=
  let latest := outdatedMapGet outdated pkg.name
  { name := pkg.name
    version := pkg.version
    latest := latest
    hasUpdate := latestTruthy latest
    description := descriptionFor env pkg.name }

/-- The body of the outer `try` of `getInstalledPackages`: resolve pip,
run and parse the installed query, run the outdated query with the
catch-fallback to "[]", parse it, and merge. -/
def getInstalledPackagesTry (env : ListEnv) : Except PipError (List PackageInfo) := do
  let _cmd ← env.pipCmd
  let installed ← env.installedOutput
  let outdatedRaw :=
    match env.outdatedCmd with
    | .ok raw => raw
    | .error _ => OutdatedRaw.arr []
  let outdated ← parseOutdated outdatedRaw
  return installed.map (mergeRecord env outdated)

/-- Result of the whole `getInstalledPackages` call: the returned array
and whether `vscode.window.showErrorMessage` was invoked. -/
structure ListOutcome where
  packages : List PackageInfo
  errorNotified : Bool
deriving DecidableEq, Repr

/-- `getInstalledPackages` as a whole: the outer `catch` turns any error
of the body into an error notification plus an empty returned array. -/
def getInstalledPackages (env : ListEnv) : ListOutcome :=
  match getInstalledPackagesTry env with
  | .ok packages => { packages := packages, errorNotified := false }
  | .error _ => { packages := [], errorNotified := true }

/-! ## Interpreter resolver (`getPythonPath`) and pip locator (`getPipCommand`) -/

/-- Oracle for `getPythonPath`: whether the `ms-python.python` extension
is present, the `python.defaultInterpreterPath` setting (`none` when the
setting is absent; the source also treats the empty string as absent via
JS truthiness), the outcome of `testPythonPath` on a candidate path, and
the stdout of `which cmd` / `where cmd` for a probed command name
(`none` when the lookup command was rejected). -/
structure ResolverEnv where
  win32 : Bool
  hasPythonExtension : Bool
  configuredPath : Option String
  testPython : String → Bool
  whichOutput : String → Option String

/-- The platform-specific list of interpreter command names probed on the
PATH, in order. -/
def pythonCommands (win32 : Bool) : List String :=
  if win32 then ["python.exe", "python3.exe", "py.exe"] else ["python3", "python"]

/-- The first line of the trimmed
`which`/`where` output. -/
def firstLine (out : String) : String :=
  ((out.trim).splitOn "\n").headD ""

/-- The PATH-probing loop of `getPythonPath`: for each command name, look
it up, skip on rejection or empty output, validate the first reported
path, and return the first validated candidate. -/
def probeCommands (env : ResolverEnv) : List String → Except PipError String
  | [] => .error .notFound
  | cmd :: rest =>
    match env.whichOutput cmd with
    | some out =>
      if out != "" then
        let p := firstLine out
        if env.testPython p then .ok p else probeCommands env rest
      else probeCommands env rest
    | none => probeCommands env rest

/-- `getPythonPath`: try the configured interpreter setting first (only
when the Python extension is present, the setting is a non-empty string
and validation passes), then probe the platform command list; exhausting
everything throws the not-found error. -/
def getPythonPath (env : ResolverEnv) : Except PipError String :=
  let fromSetting : Option String :=
    if env.hasPythonExtension then
      match env.configuredPath with
      | some p => if p != "" && env.testPython p then some p else none
      | none => none
    else none
  match fromSetting with
  | some p => .ok p
  | none => probeCommands env (pythonCommands env.win32)

/-- `path.join` of two segments; the platform separator is abstracted
to `/`, which is injective enough for every property proved here. -/
def joinPath (a b : String) : String := a ++ "/" ++ b

/-- Oracle for `getPipCommand`: the resolver oracle plus the outcome of
the `fs.promises.access(pipPath, X_OK)` check on a path. -/
structure LocatorEnv where
  resolver : ResolverEnv
  pipExecutable : String → Bool

/-- The pip executable path built inside an active environment:
`path.join(env.path, binDir, pipCommand)` with the platform-specific
sub-directory and extension. -/
def pipPathIn (win32 : Bool) (envPath : String) : String :=
  let pipCommand := if win32 then "pip.exe" else "pip"
  let binDir := if win32 then "Scripts" else "bin"
  joinPath (joinPath envPath binDir) pipCommand

/-- `getPipCommand`: with an active environment whose pip executable
passes the access check, a direct zero-prefix invocation; otherwise the
`{python, ["-m", "pip"]}` fallback through `getPythonPath`. -/
def getPipCommand (currentEnv : Option EnvironmentInfo) (env : LocatorEnv) :
    Except PipError PipCmd :=
  let fallback : Except PipError PipCmd :=
    (getPythonPath env.resolver).map fun p =>
      { command := p, args := ["-m", "pip"], envPath := none }
  match currentEnv with
  | some e =>
    let pipPath := pipPathIn env.resolver.win32 e.path
    if env.pipExecutable pipPath then
      .ok { command := pipPath, args := [], envPath := none }
    else fallback
  | none => fallback

/-! ## Environment enumerator (`getVirtualEnvironments`) -/

/-- The slice of `fs.Stats` the enumerator inspects. -/
structure Stats where
  isDirectory : Bool
  isFile : Bool
deriving DecidableEq, Repr

/-- Oracle for `getVirtualEnvironments`: the open workspace folder roots
(`none` when no workspace is open) and the outcome of `fs.promises.stat`
on a path (`none` when `stat` throws, i.e. the path does not exist). -/
structure EnumEnv where
  win32 : Bool
  workspaceFolders : Option (List String)
  stat : String → Option Stats

/-- The fixed candidate folder names scanned in each workspace root. -/
def envFolders : List String :=
  [".venv", "venv", "env", ".env", ".virtualenv", "virtualenv"]

/-- The platform-specific interior interpreter path checked inside a
candidate environment directory. -/
def interiorPython (win32 : Bool) : String :=
  if win32 then "Scripts/python.exe" else "bin/python"

/-- The check and record construction for one candidate `<root>/<name>`:
it must stat as a directory and contain the interior interpreter as a
file; the active flag is path equality with the current environment. -/
def candidateEnv (env : EnumEnv) (currentEnv : Option EnvironmentInfo)
    (folder envName : String) : Option EnvironmentInfo :=
  let envPath := joinPath folder envName
  match env.stat envPath with
  | some st =>
    if st.isDirectory then
      match env.stat (joinPath envPath (interiorPython env.win32)) with
      | some pst =>
        if pst.isFile then
          some { name := envName
                 path := envPath
                 isActive := match currentEnv with
                   | some c => c.path == envPath
                   | none => false }
        else none
      | none => none
    else none
  | none => none

/-- `getVirtualEnvironments`: no workspace yields the empty list;
otherwise every candidate of every root that passes both checks is
emitted, in scan order. -/
def getVirtualEnvironments (env : EnumEnv) (currentEnv : Option EnvironmentInfo) :
    List EnvironmentInfo :=
  match env.workspaceFolders with
  | none => []
  | some folders =>
    folders.flatMap fun folder =>
      envFolders.filterMap fun envName => candidateEnv env currentEnv folder envName

/-! ## Batch update (`updatePackages`) -/

/-- One external effect of `updatePackages`: resolving the pip command
(which may itself probe interpreters) or spawning one pip process. -/
inductive PipEffect where
  | resolvePip
  | exec (command : String) (args : List String)
deriving DecidableEq, Repr

/-- The `{success, failed}` result of `updatePackages`. -/
structure UpdateResult where
  success : List String
  failed : List String
deriving DecidableEq, Repr

/-- Oracle for `updatePackages`: the outcome of `getPipCommand` and of
`executeCommand` for a given command and argument list. -/
structure UpdateEnv where
  pipCmd : Except PipError PipCmd
  run : String → List String → Except PipError String

/-- The per-package fallback loop: each name is upgraded independently
and lands in `success` or `failed`; a failure never aborts the rest.
Also returns the spawned-process trace. -/
def updateIndividually (env : UpdateEnv) (cmd : PipCmd) :
    List String → List String × List String × List PipEffect
  | [] => ([], [], [])
  | n :: rest =>
    let upgradeArgs := cmd.args ++ ["install", "--upgrade", n]
    let (s, f, t) := updateIndividually env cmd rest
    match env.run cmd.command upgradeArgs with
    | .ok _ => (n :: s, f, .exec cmd.command upgradeArgs :: t)
    | .error _ => (s, n :: f, .exec cmd.command upgradeArgs :: t)

/-- `updatePackages`: empty input short-circuits before any external
call; otherwise resolve pip (outer-catch on failure, at which point both
accumulators are still empty, so `failed` becomes every requested name),
attempt one combined upgrade listing all names, and on its failure fall
back to the per-name loop.  The second component is the trace of
external effects. -/
def updatePackages (env : UpdateEnv) (packageNames : List String) :
    UpdateResult × List PipEffect :=
  if packageNames.isEmpty then ({ success := [], failed := [] }, [])
  else
    match env.pipCmd with
    | .error _ =>
      ({ success := []
         failed := [] ++ packageNames.filter (fun p => !(([] : List String).contains p)) },
       [.resolvePip])
    | .ok cmd =>
      let batchArgs := cmd.args ++ ["install", "--upgrade"] ++ packageNames
      match env.run cmd.command batchArgs with
      | .ok _ =>
        ({ success := packageNames, failed := [] },
         [.resolvePip, .exec cmd.command batchArgs])
      | .error _ =>
        ({ success := (updateIndividually env cmd packageNames).1
           failed := (updateIndividually env cmd packageNames).2.1 },
         .resolvePip :: .exec cmd.command batchArgs ::
           (updateIndividually env cmd packageNames).2.2)

/-! ## Environment provider (`environmentProvider.ts`) -/

/-- The state touched by `PipingEnvironmentProvider.setActiveEnvironment`:
the provider's `_environments` array and the executor's shared
`currentEnv` slot. -/
structure ProviderState where
  environments : List EnvironmentInfo
  executorCurrentEnv : Option EnvironmentInfo
deriving DecidableEq, Repr

/-- The `forEach` that sets every record inactive. -/
def clearActive (l : List EnvironmentInfo) : List EnvironmentInfo :=
  l.map fun e => { e with isActive := false }

/-- In-place activation of the first record whose name matches, as done
by mutating the record found by `_environments.find`. -/
def activateFirst (name : String) : List EnvironmentInfo → List EnvironmentInfo
  | [] => []
  | e :: rest =>
    if e.name == name then { e with isActive := true } :: rest
    else e :: activateFirst name rest

/-- `setActiveEnvironment`: clear the active flag on every record, then
set it on the first record matching `name` and point the executor's
`currentEnv` slot at that record; when nothing matches, the slot is left
untouched. -/
def setActiveEnvironment (name : String) (s : ProviderState) : ProviderState :=
  let cleared := clearActive s.environments
  match cleared.find? (fun e => e.name == name) with
  | some e =>
    { environments := activateFirst name cleared
      executorCurrentEnv := some { e with isActive := true } }
  | none =>
    { environments := cleared
      executorCurrentEnv := s.executorCurrentEnv }

/-! ## Shared lemmas about the reconciler -/

/-- Successful run shape: pip resolved, installed list parsed, outdated
list parsed as an array. -/
theorem getInstalledPackages_ok_arr (env : ListEnv) (cmd : PipCmd)
    (installed : List InstalledPackage) (outdated : List OutdatedPackage)
    (hc : env.pipCmd = Except.ok cmd)
    (hi : env.installedOutput = Except.ok installed)
    (ho : env.outdatedCmd = Except.ok (OutdatedRaw.arr outdated)) :
    getInstalledPackages env =
      { packages := installed.map (mergeRecord env outdated), errorNotified := false } := by
  simp [getInstalledPackages, getInstalledPackagesTry, hc, hi, ho, parseOutdated, Bind.bind, Except.bind,
    Functor.map, Except.map, Pure.pure, Except.pure]

/-- Failed outdated run shape: the catch-fallback substitutes the empty
array. -/
theorem getInstalledPackages_outdated_error (env : ListEnv) (cmd : PipCmd)
    (installed : List InstalledPackage) (err : PipError)
    (hc : env.pipCmd = Except.ok cmd)
    (hi : env.installedOutput = Except.ok installed)
    (ho : env.outdatedCmd = Except.error err) :
    getInstalledPackages env =
      { packages := installed.map (mergeRecord env []), errorNotified := false } := by
  simp [getInstalledPackages, getInstalledPackagesTry, hc, hi, ho, parseOutdated, Bind.bind, Except.bind,
    Functor.map, Except.map, Pure.pure, Except.pure]

/-- An empty outdated list makes every merged record update-free. -/
theorem mergeRecord_nil (env : ListEnv) (pkg : InstalledPackage) :
    mergeRecord env [] pkg =
      { name := pkg.name, version := pkg.version, latest := none,
        hasUpdate := false, description := descriptionFor env pkg.name } := by
  simp [mergeRecord, outdatedMapGet, latestTruthy]

/-- `latestTruthy` is true exactly on non-empty present strings. -/
theorem latestTruthy_iff (o : Option String) :
    latestTruthy o = true ↔ ∃ v, o = some v ∧ v ≠ "" := by
  cases o with
  | none => simp [latestTruthy]
  | some s => simp [latestTruthy]

/-! ## C1 -/

/-- Concrete input for the failing installed query: pip resolves, the
installed-list query fails. -/
def envInstalledFailure : ListEnv :=
  { pipCmd := Except.ok { command := "pip", args := [], envPath := none }
    installedOutput := Except.error (PipError.execFailed "exit 1")
    outdatedCmd := Except.ok (OutdatedRaw.arr [])
    showOutput := fun _ => Except.ok "" }

/-- C1 counterexample: with a failing installed-packages query,
`getInstalledPackages` does not fail or raise — the outer catch returns
normally with an empty package array (plus an error notification), which
is exactly the empty-list fallback the claim denies exists. -/
theorem c1_installedFailure_cex :
    getInstalledPackages envInstalledFailure =
      { packages := [], errorNotified := true } := by
  rfl

/-- C1 (amended): if the pip command resolves but the primary
installed-packages query fails or returns unparseable output, then
`getInstalledPackages` catches the error, shows an error notification,
and returns an empty package list rather than raising. -/
theorem c1_installedFailure_notifies_empty (env : ListEnv) (cmd : PipCmd) (err : PipError)
    (hc : env.pipCmd = Except.ok cmd)
    (hi : env.installedOutput = Except.error err) :
    getInstalledPackages env = { packages := [], errorNotified := true } := by
  simp [getInstalledPackages, getInstalledPackagesTry, hc, hi, Bind.bind, Except.bind, Functor.map, Except.map, Pure.pure, Except.pure]

/-- C1 witness: the amended theorem applied at the concrete failing
input. -/
theorem c1_installedFailure_notifies_empty_witness :
    getInstalledPackages envInstalledFailure = { packages := [], errorNotified := true } :=
  c1_installedFailure_notifies_empty envInstalledFailure
    { command := "pip", args := [], envPath := none }
    (PipError.execFailed "exit 1") rfl rfl

/-! ## C3 -/

/-- C3: if the installed query succeeds but the outdated query fails,
`getInstalledPackages` still returns one record per installed package
(names and versions preserved, in order), every record has
`hasUpdate = false` and no latest version, and no error is surfaced for
the outdated failure. -/
theorem c3_outdated_failure_degrades (env : ListEnv) (cmd : PipCmd)
    (installed : List InstalledPackage) (err : PipError)
    (hc : env.pipCmd = Except.ok cmd)
    (hi : env.installedOutput = Except.ok installed)
    (ho : env.outdatedCmd = Except.error err) :
    (getInstalledPackages env).errorNotified = false ∧
    (getInstalledPackages env).packages.map (fun r => (r.name, r.version)) =
      installed.map (fun p => (p.name, p.version)) ∧
    ∀ r ∈ (getInstalledPackages env).packages, r.hasUpdate = false ∧ r.latest = none := by
  rw [getInstalledPackages_outdated_error env cmd installed err hc hi ho]
  refine ⟨rfl, ?_, ?_⟩
  · simp [mergeRecord_nil]
  · intro r hr
    simp only [List.mem_map] at hr
    obtain ⟨p, _, hp⟩ := hr
    rw [← hp, mergeRecord_nil]
    exact ⟨rfl, rfl⟩

/-- Concrete input for the outdated-failure path: one installed package,
failing outdated query. -/
def envOutdatedFailure : ListEnv :=
  { pipCmd := Except.ok { command := "pip", args := [], envPath := none }
    installedOutput := Except.ok [{ name := "requests", version := "2.28.0" }]
    outdatedCmd := Except.error (PipError.execFailed "network down")
    showOutput := fun _ => Except.error (PipError.execFailed "no show") }

/-- C3 witness: the theorem applied at the concrete input. -/
theorem c3_outdated_failure_degrades_witness :
    (getInstalledPackages envOutdatedFailure).errorNotified = false ∧
    (getInstalledPackages envOutdatedFailure).packages.map (fun r => (r.name, r.version)) =
      [{ name := "requests", version := "2.28.0" : InstalledPackage }].map
        (fun p => (p.name, p.version)) ∧
    ∀ r ∈ (getInstalledPackages envOutdatedFailure).packages,
      r.hasUpdate = false ∧ r.latest = none :=
  c3_outdated_failure_degrades envOutdatedFailure
    { command := "pip", args := [], envPath := none }
    [{ name := "requests", version := "2.28.0" }]
    (PipError.execFailed "network down") rfl rfl rfl

/-! ## C2 -/

/-- The fields of a merged record, in terms of the outdated lookup. -/
theorem mergeRecord_fields (env : ListEnv) (outdated : List OutdatedPackage)
    (pkg : InstalledPackage) :
    (mergeRecord env outdated pkg).name = pkg.name ∧
    (mergeRecord env outdated pkg).latest = outdatedMapGet outdated pkg.name ∧
    (mergeRecord env outdated pkg).hasUpdate =
      latestTruthy (outdatedMapGet outdated pkg.name) := by
  exact ⟨rfl, rfl, rfl⟩

/-- The concrete scenario of the spec: one installed package `requests`
2.28.0 with outdated entry reporting latest 2.31.0. -/
def envScenario : ListEnv :=
  { pipCmd := Except.ok { command := "pip", args := [], envPath := none }
    installedOutput := Except.ok [{ name := "requests", version := "2.28.0" }]
    outdatedCmd := Except.ok (OutdatedRaw.arr
      [{ name := "requests", version := "2.28.0", latest_version := "2.31.0" }])
    showOutput := fun _ => Except.error (PipError.execFailed "no metadata") }

/-- Input showing the boundary of the claimed iff: the outdated query
reports an entry whose `latest_version` is the empty string. -/
def envEmptyLatest : ListEnv :=
  { pipCmd := Except.ok { command := "pip", args := [], envPath := none }
    installedOutput := Except.ok [{ name := "x", version := "1.0" }]
    outdatedCmd := Except.ok (OutdatedRaw.arr
      [{ name := "x", version := "1.0", latest_version := "" }])
    showOutput := fun _ => Except.error (PipError.execFailed "no metadata") }

/-- C2 counterexample: with an outdated entry whose `latest_version` is
the empty string, the package name appears in the outdated lookup and the
`latest` field is set, yet `hasUpdate` is `false` (JS truthiness of
`!!latest`), so neither claimed iff holds as stated. -/
theorem c2_empty_latest_cex :
    (getInstalledPackages envEmptyLatest).packages =
      [{ name := "x", version := "1.0", latest := some "",
         hasUpdate := false, description := "" }] ∧
    (outdatedMapGet [{ name := "x", version := "1.0", latest_version := "" }] "x").isSome
      = true := by
  decide

/-- C2 (amended): on a successful pass, every record carries exactly the
outdated-lookup value of its name in `latest` (so `latest` is set iff the
name appears in the lookup), and `hasUpdate` is true iff the lookup
yields a non-empty latest version; the concrete scenario of the spec
produces exactly the claimed record. -/
theorem c2_hasUpdate_lookup (env : ListEnv) (cmd : PipCmd)
    (installed : List InstalledPackage) (outdated : List OutdatedPackage)
    (hc : env.pipCmd = Except.ok cmd)
    (hi : env.installedOutput = Except.ok installed)
    (ho : env.outdatedCmd = Except.ok (OutdatedRaw.arr outdated)) :
    (∀ r ∈ (getInstalledPackages env).packages,
       r.latest = outdatedMapGet outdated r.name ∧
       (r.hasUpdate = true ↔ ∃ v, outdatedMapGet outdated r.name = some v ∧ v ≠ "")) ∧
    getInstalledPackages envScenario =
      { packages := [{ name := "requests", version := "2.28.0", latest := some "2.31.0",
                       hasUpdate := true, description := "" }],
        errorNotified := false } := by
  constructor
  · rw [getInstalledPackages_ok_arr env cmd installed outdated hc hi ho]
    intro r hr
    simp only [List.mem_map] at hr
    obtain ⟨p, _, hp⟩ := hr
    obtain ⟨hname, hlatest, hupd⟩ := mergeRecord_fields env outdated p
    subst hp
    rw [hname, hlatest, hupd]
    exact ⟨rfl, latestTruthy_iff _⟩
  · decide

/-- C2 witness: the amended theorem applied at the scenario input and its
single record. -/
theorem c2_hasUpdate_lookup_witness :
    ({ name := "requests", version := "2.28.0", latest := some "2.31.0",
       hasUpdate := true, description := "" } : PackageInfo).latest =
      outdatedMapGet
        [{ name := "requests", version := "2.28.0", latest_version := "2.31.0" }]
        "requests" :=
  ((c2_hasUpdate_lookup envScenario
      { command := "pip", args := [], envPath := none }
      [{ name := "requests", version := "2.28.0" }]
      [{ name := "requests", version := "2.28.0", latest_version := "2.31.0" }]
      rfl rfl rfl).1
    { name := "requests", version := "2.28.0", latest := some "2.31.0",
      hasUpdate := true, description := "" }
    (by decide)).1

/-! ## C6 -/

/-- Input where the outdated query reports a latest version equal to the
installed version. -/
def envEqualLatest : ListEnv :=
  { pipCmd := Except.ok { command := "pip", args := [], envPath := none }
    installedOutput := Except.ok [{ name := "x", version := "1.0" }]
    outdatedCmd := Except.ok (OutdatedRaw.arr
      [{ name := "x", version := "1.0", latest_version := "1.0" }])
    showOutput := fun _ => Except.error (PipError.execFailed "no metadata") }

/-- C6 counterexample: the code never compares the reported latest
version with the installed one.  With an outdated entry whose
`latest_version` equals the installed version, the record still comes
out with `hasUpdate = true`, although the claim says a latest version
equal to the installed one must not be flagged. -/
theorem c6_equal_latest_cex :
    (getInstalledPackages envEqualLatest).packages =
      [{ name := "x", version := "1.0", latest := some "1.0",
         hasUpdate := true, description := "" }] := by
  decide

/-- C6 (amended): on a successful pass, a record's has-update flag is
true iff a non-empty latest version is present for it in the outdated
lookup — no comparison with the installed version takes place, so a
latest version equal to the installed one is still flagged. -/
theorem c6_hasUpdate_present (env : ListEnv) (cmd : PipCmd)
    (installed : List InstalledPackage) (outdated : List OutdatedPackage)
    (hc : env.pipCmd = Except.ok cmd)
    (hi : env.installedOutput = Except.ok installed)
    (ho : env.outdatedCmd = Except.ok (OutdatedRaw.arr outdated)) :
    ∀ r ∈ (getInstalledPackages env).packages,
      r.hasUpdate = true ↔ ∃ v, r.latest = some v ∧ v ≠ "" := by
  rw [getInstalledPackages_ok_arr env cmd installed outdated hc hi ho]
  intro r hr
  simp only [List.mem_map] at hr
  obtain ⟨p, _, hp⟩ := hr
  obtain ⟨_, hlatest, hupd⟩ := mergeRecord_fields env outdated p
  subst hp
  rw [hupd, hlatest]
  exact latestTruthy_iff _

/-- C6 witness: the amended theorem applied at the equal-latest input and
its single record. -/
theorem c6_hasUpdate_present_witness :
    ({ name := "x", version := "1.0", latest := some "1.0",
       hasUpdate := true, description := "" } : PackageInfo).hasUpdate = true ↔
      ∃ v, ({ name := "x", version := "1.0", latest := some "1.0",
              hasUpdate := true, description := "" } : PackageInfo).latest = some v ∧
           v ≠ "" :=
  c6_hasUpdate_present envEqualLatest
    { command := "pip", args := [], envPath := none }
    [{ name := "x", version := "1.0" }]
    [{ name := "x", version := "1.0", latest_version := "1.0" }]
    rfl rfl rfl
    { name := "x", version := "1.0", latest := some "1.0",
      hasUpdate := true, description := "" }
    (by decide)

/-! ## C4 -/

/-- `isOk` on a success. -/
theorem except_isOk_ok {e a : Type} (v : a) : (Except.ok v : Except e a).isOk = true := rfl

/-- `isOk` on an error. -/
theorem except_isOk_error {e a : Type} (err : e) :
    (Except.error err : Except e a).isOk = false := rfl

/-- The per-name fallback loop partitions the names by the outcome of
their individual upgrade invocation, order preserved. -/
theorem updateIndividually_filter (env : UpdateEnv) (cmd : PipCmd) (names : List String) :
    (updateIndividually env cmd names).1 =
      names.filter
        (fun n => (env.run cmd.command (cmd.args ++ ["install", "--upgrade", n])).isOk) ∧
    (updateIndividually env cmd names).2.1 =
      names.filter
        (fun n => !(env.run cmd.command (cmd.args ++ ["install", "--upgrade", n])).isOk) := by
  induction names with
  | nil => exact ⟨rfl, rfl⟩
  | cons n rest ih =>
    cases hrun : env.run cmd.command (cmd.args ++ ["install", "--upgrade", n]) with
    | ok v =>
      simp [updateIndividually, hrun, List.filter_cons, except_isOk_ok, ih.1, ih.2]
    | error e =>
      simp [updateIndividually, hrun, List.filter_cons, except_isOk_error, ih.1, ih.2]

/-- C4: for a non-empty name list, `updatePackages` reports every name
succeeded when the one combined upgrade invocation succeeds; when the
combined invocation fails, each name is retried individually and lands in
`success` iff its own invocation succeeds and in `failed` otherwise; and
when the pip invocation itself cannot be resolved, every requested name
is reported failed. -/
theorem c4_updatePackages_spec (env : UpdateEnv) (names : List String)
    (h : names ≠ []) :
    ((∃ e, env.pipCmd = Except.error e) →
        (updatePackages env names).1 = { success := [], failed := names }) ∧
    (∀ cmd, env.pipCmd = Except.ok cmd →
      (((env.run cmd.command (cmd.args ++ ["install", "--upgrade"] ++ names)).isOk = true →
          (updatePackages env names).1 = { success := names, failed := [] }) ∧
       ((env.run cmd.command (cmd.args ++ ["install", "--upgrade"] ++ names)).isOk = false →
          (updatePackages env names).1.success =
            names.filter
              (fun n => (env.run cmd.command (cmd.args ++ ["install", "--upgrade", n])).isOk) ∧
          (updatePackages env names).1.failed =
            names.filter
              (fun n => !(env.run cmd.command
                (cmd.args ++ ["install", "--upgrade", n])).isOk)))) := by
  have hne : names.isEmpty = false := by
    cases names with
    | nil => exact absurd rfl h
    | cons a l => rfl
  refine ⟨?_, ?_⟩
  · rintro ⟨e, he⟩
    simp [updatePackages, hne, he, List.contains, List.filter_true]
  · intro cmd hcmd
    constructor
    · intro hok
      cases hrun : env.run cmd.command (cmd.args ++ ["install", "--upgrade"] ++ names) with
      | ok v =>
        have hr : env.run cmd.command (cmd.args ++ "install" :: "--upgrade" :: names) =
            Except.ok v := by simpa using hrun
        simp [updatePackages, hne, hcmd, hr]
      | error e =>
        rw [hrun] at hok
        exact absurd hok (by simp [except_isOk_error])
    · intro hfail
      cases hrun : env.run cmd.command (cmd.args ++ ["install", "--upgrade"] ++ names) with
      | ok v =>
        rw [hrun] at hfail
        exact absurd hfail (by simp [except_isOk_ok])
      | error e =>
        have hr : env.run cmd.command (cmd.args ++ "install" :: "--upgrade" :: names) =
            Except.error e := by simpa using hrun
        have hu := updateIndividually_filter env cmd names
        constructor
        · simpa [updatePackages, hne, hcmd, hr] using hu.1
        · simpa [updatePackages, hne, hcmd, hr] using hu.2

/-- A bare pip invocation used by the concrete batch-update inputs. -/
def pipCmdBare : PipCmd := { command := "pip", args := [], envPath := none }

/-- Concrete batch-update oracle: any invocation whose argument list
mentions the package `b` fails, everything else succeeds — so the
combined call for `a b` fails, the individual call for `a` succeeds and
the one for `b` fails. -/
def uenvMixed : UpdateEnv :=
  { pipCmd := Except.ok pipCmdBare
    run := fun _ upgradeArgs =>
      if upgradeArgs.contains "b" then Except.error (PipError.execFailed "b broke")
      else Except.ok "" }

/-- C4 witness: the theorem applied at the mixed concrete input, on the
combined-call-failure branch. -/
theorem c4_updatePackages_spec_witness :
    (updatePackages uenvMixed ["a", "b"]).1.success =
      ["a", "b"].filter
        (fun n =>
          (uenvMixed.run pipCmdBare.command
            (pipCmdBare.args ++ ["install", "--upgrade", n])).isOk) ∧
    (updatePackages uenvMixed ["a", "b"]).1.failed =
      ["a", "b"].filter
        (fun n =>
          !(uenvMixed.run pipCmdBare.command
            (pipCmdBare.args ++ ["install", "--upgrade", n])).isOk) :=
  ((c4_updatePackages_spec uenvMixed ["a", "b"] (by decide)).2 pipCmdBare rfl).2 (by decide)

/-! ## C9 -/

/-- C9: `updatePackages` on the empty name list returns empty succeeded
and failed sets and produces no external effect at all — pip is not even
resolved, so no process is spawned. -/
theorem c9_updatePackages_empty (env : UpdateEnv) :
    updatePackages env [] = ({ success := [], failed := [] }, []) := rfl

/-! ## C5 -/

/-- The probing loop only ever fails with the not-found error. -/
theorem probeCommands_error (env : ResolverEnv) (cmds : List String) (err : PipError)
    (h : probeCommands env cmds = Except.error err) : err = PipError.notFound := by
  induction cmds with
  | nil =>
    simp only [probeCommands, Except.error.injEq] at h
    exact h.symm
  | cons c rest ih =>
    simp only [probeCommands] at h
    split at h
    · split at h
      · split at h
        · exact absurd h (by simp)
        · exact ih h
      · exact ih h
    · exact ih h

/-- `getPythonPath` only ever fails with the not-found error. -/
theorem getPythonPath_error (env : ResolverEnv) (err : PipError)
    (h : getPythonPath env = Except.error err) : err = PipError.notFound := by
  simp only [getPythonPath] at h
  split at h
  · exact absurd h (by simp)
  · exact probeCommands_error env _ err h

/-- C5: with an active environment whose pip executable fails the access
check, `getPipCommand` is exactly the interpreter-module fallback
`{python, ["-m", "pip"]}`, and it can only fail with the not-found error
when the interpreter itself cannot be resolved. -/
theorem c5_getPipCommand_fallback (w : LocatorEnv) (e : EnvironmentInfo)
    (h : w.pipExecutable (pipPathIn w.resolver.win32 e.path) = false) :
    getPipCommand (some e) w =
      (getPythonPath w.resolver).map
        (fun p => { command := p, args := ["-m", "pip"], envPath := none }) ∧
    ∀ err, getPipCommand (some e) w = Except.error err →
      err = PipError.notFound ∧
      getPythonPath w.resolver = Except.error PipError.notFound := by
  have h1 : getPipCommand (some e) w =
      (getPythonPath w.resolver).map
        (fun p => { command := p, args := ["-m", "pip"], envPath := none }) := by
    simp [getPipCommand, h]
  refine ⟨h1, ?_⟩
  intro err herr
  rw [h1] at herr
  cases hg : getPythonPath w.resolver with
  | ok p => rw [hg] at herr; exact absurd herr (by simp [Except.map])
  | error e2 =>
    rw [hg] at herr
    simp only [Except.map, Except.error.injEq] at herr
    have h2 : e2 = PipError.notFound := getPythonPath_error w.resolver e2 hg
    constructor
    · rw [← herr]
      exact h2
    · rw [h2]

/-- Concrete locator oracle: no pip executable anywhere; the configured
interpreter setting provides `/usr/bin/python3`, which validates. -/
def wLoc : LocatorEnv :=
  { resolver :=
      { win32 := false
        hasPythonExtension := true
        configuredPath := some "/usr/bin/python3"
        testPython := fun p => p == "/usr/bin/python3"
        whichOutput := fun _ => none }
    pipExecutable := fun _ => false }

/-- The concrete active environment used with `wLoc`. -/
def eVenv : EnvironmentInfo := { name := "venv", path := "/ws/venv", isActive := true }

/-- C5 witness: the theorem applied at the concrete locator input; the
fallback resolves to the interpreter-module invocation. -/
theorem c5_getPipCommand_fallback_witness :
    getPipCommand (some eVenv) wLoc =
      Except.ok { command := "/usr/bin/python3", args := ["-m", "pip"], envPath := none } :=
  ((c5_getPipCommand_fallback wLoc eVenv rfl).1).trans (by rfl)

/-! ## C7 -/

/-- C7: the enumerator yields the empty sequence when no workspace root
is open, and every emitted record is a `<workspaceRoot>/<candidateName>`
directory that passed both the directory check and the interior
interpreter-file check. -/
theorem c7_getVirtualEnvironments_sound (env : EnumEnv) (cur : Option EnvironmentInfo) :
    (env.workspaceFolders = none → getVirtualEnvironments env cur = []) ∧
    ∀ r ∈ getVirtualEnvironments env cur,
      ∃ folders, env.workspaceFolders = some folders ∧
      ∃ folder ∈ folders, r.name ∈ envFolders ∧ r.path = joinPath folder r.name ∧
      (∃ st, env.stat r.path = some st ∧ st.isDirectory = true) ∧
      (∃ pst, env.stat (joinPath r.path (interiorPython env.win32)) = some pst ∧
        pst.isFile = true) := by
  constructor
  · intro hnone
    simp [getVirtualEnvironments, hnone]
  · intro r hr
    cases hwf : env.workspaceFolders with
    | none => simp [getVirtualEnvironments, hwf] at hr
    | some folders =>
      simp only [getVirtualEnvironments, hwf, List.mem_flatMap, List.mem_filterMap] at hr
      obtain ⟨folder, hfolder, envName, hname, hcand⟩ := hr
      refine ⟨folders, rfl, folder, hfolder, ?_⟩
      simp only [candidateEnv] at hcand
      split at hcand
      case h_2 => exact absurd hcand (by simp)
      case h_1 st hst =>
        split at hcand
        case isFalse => exact absurd hcand (by simp)
        case isTrue hdir =>
          split at hcand
          case h_2 => exact absurd hcand (by simp)
          case h_1 pst hpst =>
            split at hcand
            case isFalse => exact absurd hcand (by simp)
            case isTrue hfile =>
              have hrec := Option.some.inj hcand
              have hrname : r.name = envName := by rw [← hrec]
              have hrpath : r.path = joinPath folder envName := by rw [← hrec]
              refine ⟨hrname ▸ hname, by rw [hrpath, hrname], ?_, ?_⟩
              · exact ⟨st, by rw [hrpath]; exact hst, hdir⟩
              · exact ⟨pst, by rw [hrpath]; exact hpst, hfile⟩

/-- Concrete enumerator oracle: one workspace root `/ws` with a valid
`venv` (directory plus interior interpreter file) and an `env` directory
with no interpreter inside. -/
def eEnum : EnumEnv :=
  { win32 := false
    workspaceFolders := some ["/ws"]
    stat := fun p =>
      if p == "/ws/venv" then some { isDirectory := true, isFile := false }
      else if p == "/ws/venv/bin/python" then some { isDirectory := false, isFile := true }
      else if p == "/ws/env" then some { isDirectory := true, isFile := false }
      else none }

/-- C7 witness: the theorem applied at the concrete enumerator input and
the single record it emits (`/ws/env`, having no interior interpreter,
is excluded). -/
theorem c7_getVirtualEnvironments_sound_witness :
    ∃ folders, eEnum.workspaceFolders = some folders ∧
    ∃ folder ∈ folders,
      ({ name := "venv", path := "/ws/venv", isActive := false } : EnvironmentInfo).name
        ∈ envFolders ∧
      ({ name := "venv", path := "/ws/venv", isActive := false } : EnvironmentInfo).path
        = joinPath folder "venv" ∧
      (∃ st, eEnum.stat "/ws/venv" = some st ∧ st.isDirectory = true) ∧
      (∃ pst, eEnum.stat (joinPath "/ws/venv" (interiorPython eEnum.win32)) = some pst ∧
        pst.isFile = true) :=
  (c7_getVirtualEnvironments_sound eEnum none).2
    { name := "venv", path := "/ws/venv", isActive := false } (by decide)

/-! ## C8 -/

/-- Every record is inactive after the clearing pass. -/
theorem mem_clearActive_inactive (l : List EnvironmentInfo) :
    ∀ e ∈ clearActive l, e.isActive = false := by
  intro e he
  simp only [clearActive, List.mem_map] at he
  obtain ⟨e0, _, he0⟩ := he
  rw [← he0]

/-- Clearing is idempotent. -/
theorem clearActive_clearActive (l : List EnvironmentInfo) :
    clearActive (clearActive l) = clearActive l := by
  induction l with
  | nil => rfl
  | cons e rest ih =>
    simp only [clearActive, List.map_cons, List.map_map] at ih ⊢
    rw [ih]

/-- Clearing absorbs a previous activation. -/
theorem clearActive_activateFirst (name : String) (l : List EnvironmentInfo) :
    clearActive (activateFirst name l) = clearActive l := by
  induction l with
  | nil => rfl
  | cons e rest ih =>
    by_cases he : (e.name == name) = true
    · simp [activateFirst, he, clearActive]
    · simp only [activateFirst, he, if_false, Bool.false_eq_true]
      simp [clearActive] at ih ⊢
      exact ih

/-- Activation does not change names, so the first-match search is
unaffected by it. -/
theorem find?_clearActive_activateFirst (name : String) (l : List EnvironmentInfo) :
    (clearActive (activateFirst name l)).find? (fun e => e.name == name) =
      (clearActive l).find? (fun e => e.name == name) := by
  rw [clearActive_activateFirst]

/-- On an all-inactive list containing a match, activating the first
match leaves exactly one active record. -/
theorem countP_activateFirst (name : String) (l : List EnvironmentInfo)
    (hall : ∀ e ∈ l, e.isActive = false)
    (hex : ∃ e ∈ l, (e.name == name) = true) :
    (activateFirst name l).countP (fun e => e.isActive) = 1 := by
  induction l with
  | nil => simp at hex
  | cons a rest ih =>
    by_cases ha : (a.name == name) = true
    · simp only [activateFirst, ha, if_true]
      rw [List.countP_cons]
      simp only [decide_eq_true_eq]
      have hz : rest.countP (fun e => e.isActive) = 0 := by
        rw [List.countP_eq_zero]
        intro e he
        simp [hall e (List.mem_cons_of_mem a he)]
      simp [hz]
    · simp only [activateFirst, ha, if_false, Bool.false_eq_true]
      rw [List.countP_cons]
      have ha0 : a.isActive = false := hall a (List.mem_cons_self a rest)
      have hex2 : ∃ e ∈ rest, (e.name == name) = true := by
        obtain ⟨e, he, hname⟩ := hex
        rcases List.mem_cons.mp he with h1 | h2
        · exact absurd (h1 ▸ hname) ha
        · exact ⟨e, h2, hname⟩
      rw [ih (fun e he => hall e (List.mem_cons_of_mem a he)) hex2]
      simp [ha0]

/-- On an all-inactive list, any record active after activation is the
one whose name matched. -/
theorem active_activateFirst_name (name : String) (l : List EnvironmentInfo)
    (hall : ∀ e ∈ l, e.isActive = false) :
    ∀ e ∈ activateFirst name l, e.isActive = true → e.name = name := by
  induction l with
  | nil => intro e he; simp [activateFirst] at he
  | cons a rest ih =>
    intro e he hact
    by_cases ha : (a.name == name) = true
    · simp only [activateFirst, ha, if_true] at he
      rcases List.mem_cons.mp he with h1 | h2
      · rw [h1]
        exact eq_of_beq ha
      · exact absurd hact (by simp [hall e (List.mem_cons_of_mem a h2)])
    · simp only [activateFirst, ha, if_false, Bool.false_eq_true] at he
      rcases List.mem_cons.mp he with h1 | h2
      · refine absurd hact ?_
        rw [h1]
        simp [hall a (List.mem_cons_self a rest)]
      · exact ih (fun x hx => hall x (List.mem_cons_of_mem a hx)) e h2 hact

/-- C8: when some held record matches `name`, `setActiveEnvironment`
leaves exactly one record active, that record carries `name`, and the
operation is idempotent — the second call reproduces the state of the
first exactly. -/
theorem c8_setActiveEnvironment_idem (name : String) (s : ProviderState)
    (h : ∃ e ∈ s.environments, e.name = name) :
    ((setActiveEnvironment name s).environments.countP (fun e => e.isActive) = 1) ∧
    (∀ e ∈ (setActiveEnvironment name s).environments,
       e.isActive = true → e.name = name) ∧
    setActiveEnvironment name (setActiveEnvironment name s) =
      setActiveEnvironment name s := by
  have hall := mem_clearActive_inactive s.environments
  have hex : ∃ e ∈ clearActive s.environments, (e.name == name) = true := by
    obtain ⟨e, he, hname⟩ := h
    refine ⟨{ e with isActive := false }, ?_, by simp [hname]⟩
    simp only [clearActive, List.mem_map]
    exact ⟨e, he, rfl⟩
  have hfind : ((clearActive s.environments).find? (fun e => e.name == name)).isSome := by
    rw [List.find?_isSome]
    obtain ⟨e, he, hname⟩ := hex
    exact ⟨e, he, hname⟩
  obtain ⟨e0, he0⟩ := Option.isSome_iff_exists.mp hfind
  have hset : setActiveEnvironment name s =
      { environments := activateFirst name (clearActive s.environments)
        executorCurrentEnv := some { e0 with isActive := true } } := by
    simp [setActiveEnvironment, he0]
  refine ⟨?_, ?_, ?_⟩
  · rw [hset]
    exact countP_activateFirst name (clearActive s.environments) hall hex
  · rw [hset]
    exact active_activateFirst_name name (clearActive s.environments) hall
  · rw [hset]
    simp only [setActiveEnvironment, clearActive_activateFirst, clearActive_clearActive,
      he0]

/-- Concrete provider state with two distinct names and a duplicate. -/
def sProvider : ProviderState :=
  { environments := [{ name := "venv", path := "/a/venv", isActive := true },
                     { name := "env", path := "/a/env", isActive := false },
                     { name := "venv", path := "/b/venv", isActive := false }]
    executorCurrentEnv := some { name := "venv", path := "/a/venv", isActive := true } }

/-- C8 witness: the theorem applied at the concrete state and the
matching name. -/
theorem c8_setActiveEnvironment_idem_witness :
    ((setActiveEnvironment "env" sProvider).environments.countP
      (fun e => e.isActive) = 1) ∧
    setActiveEnvironment "env" (setActiveEnvironment "env" sProvider) =
      setActiveEnvironment "env" sProvider :=
  ⟨(c8_setActiveEnvironment_idem "env" sProvider (by decide)).1,
   (c8_setActiveEnvironment_idem "env" sProvider (by decide)).2.2⟩

/-! ## C10 -/

/-- C10: when no held record matches `name`, `setActiveEnvironment`
clears the active flag on every record, but the executor's shared
`currentEnv` slot is untouched — so a subsequent pip-command resolution
behaves exactly as before the call, while the record list shows zero
active environments. -/
theorem c10_setActiveEnvironment_no_match (name : String) (s : ProviderState)
    (h : ∀ e ∈ s.environments, e.name ≠ name) :
    (setActiveEnvironment name s).executorCurrentEnv = s.executorCurrentEnv ∧
    (∀ e ∈ (setActiveEnvironment name s).environments, e.isActive = false) ∧
    (∀ w, getPipCommand (setActiveEnvironment name s).executorCurrentEnv w =
          getPipCommand s.executorCurrentEnv w) := by
  have hfind : (clearActive s.environments).find? (fun e => e.name == name) = none := by
    rw [List.find?_eq_none]
    intro e he
    simp only [clearActive, List.mem_map] at he
    obtain ⟨e0, he0, hee⟩ := he
    have : e.name = e0.name := by rw [← hee]
    simp [this, h e0 he0]
  have hset : setActiveEnvironment name s =
      { environments := clearActive s.environments
        executorCurrentEnv := s.executorCurrentEnv } := by
    simp [setActiveEnvironment, hfind]
  rw [hset]
  exact ⟨rfl, mem_clearActive_inactive s.environments, fun w => rfl⟩

/-- C10 witness: the theorem applied at the concrete state and a name
matching no record: the slot still holds the previously active
environment. -/
theorem c10_setActiveEnvironment_no_match_witness :
    (setActiveEnvironment "missing" sProvider).executorCurrentEnv =
      sProvider.executorCurrentEnv :=
  (c10_setActiveEnvironment_no_match "missing" sProvider (by decide)).1

end Piping
